import Mathlib

/-!
Shallow embedding of the Soroban DAO contract
(`contracts/hello-world/src/lib.rs`) and proofs about its
proposal/voting/tally/unlock logic.

Modelling conventions:
* `Address` values are modelled as `Nat` (opaque identities with decidable
  equality); `String` keeps the Rust `String` fields (opaque text).
* Rust `u64` quantities (`amount`, `deadline`, vote accumulators,
  `total_supply`, proposal ids, timestamps) are modelled as `Nat`.
* The external token ledger (i128 balances) is a total map `Nat → Int`;
  `transferBal` applies the balance effect of a transfer.  The i128 → u64
  `try_into` in `vote` is modelled faithfully: it fails (InvalidVote) when
  the balance is negative or exceeds `2^64 - 1`.
* Soroban instance storage is the record `DAOState`: one field per
  `DataKey` constructor, plus the ledger balances and the own address of the
  contract (`env.current_contract_address()`).
* `env.ledger().timestamp()` becomes an explicit `now : Nat` argument.
* `require_auth` is the external identity oracle (out of scope per the
  spec); a call in this model stands for an execution in which that
  precondition held.
* Each contract function becomes `… → DAOState → Except DAOError α × DAOState`,
  returning the storage state after the call; every `return Err(..)` in the
  source happens before any storage write, so error results carry the input
  state unchanged, exactly as the source does.
-/

/-- Struct `TokenConfig`: singleton token configuration. -/
structure TokenConfig where
  total_supply : Nat
  admin : Nat
deriving Repr, DecidableEq

/-- Struct `Proposal`. -/
structure Proposal where
  id : Nat
  title : String
  description : String
  deadline : Nat
  yes_votes : Nat
  no_votes : Nat
  creator : Nat
  active : Bool
deriving Repr, DecidableEq

/-- Struct `Vote`: one recorded vote. -/
structure Vote where
  voter : Nat
  amount : Nat
  is_yes : Bool
deriving Repr, DecidableEq

/-- Enum `DAOError`: the error codes of the contract. -/
inductive DAOError where
  | AlreadyInitialised
  | NotInitialised
  | InvalidProposal
  | ProposalExpired
  | AlreadyVoted
  | InsufficientTokens
  | VotingNotClosed
  | InvalidVote
deriving Repr, DecidableEq

/-- Persistent instance storage of the contract (one field per `DataKey`
constructor) together with the external token ledger balances and the
own address of the contract. -/
structure DAOState where
  tokenConfig : Option TokenConfig
  proposalCount : Option Nat
  proposals : Nat → Option Proposal
  votes : Nat → Nat → Option Vote
  lockedTokens : Nat → Option Nat
  balances : Nat → Int
  contractAddr : Nat

/-- Balance effect of `token_client.transfer(&src, &dst, &amt)` on the
external ledger (handles `src = dst` correctly). -/
def transferBal (bal : Nat → Int) (src dst : Nat) (amt : Int) : Nat → Int :=
  fun a => bal a - (if a = src then amt else 0) + (if a = dst then amt else 0)

/-- A fresh contract instance: empty storage, an arbitrary pre-existing
token-ledger balance assignment, and the contract address. -/
def initialState (bal : Nat → Int) (contract : Nat) : DAOState :=
  { tokenConfig := none
    proposalCount := none
    proposals := fun _ => none
    votes := fun _ _ => none
    lockedTokens := fun _ => none
    balances := bal
    contractAddr := contract }

/-- The value `u64::MAX`, the upper bound of the i128 → u64 `try_into` in `vote`. -/
def u64Max : Int := 2 ^ 64 - 1

namespace DAOContract

/-- Function `initialise(env, admin, members, token_id)`: rejects if already
initialised, stores `TokenConfig` with `total_supply = members.len() * 100
* 100000`, sets the proposal counter to 0, and transfers `100 * 100000`
tokens from the admin to each member. -/
def initialise (admin : Nat) (members : List Nat) (_token_id : Nat)
    (σ : DAOState) : Except DAOError Unit × DAOState :=
  if (σ.tokenConfig).isSome then
    (Except.error DAOError.AlreadyInitialised, σ)
  else
    let total_supply := members.length * 100 * 100000
    let token_config : TokenConfig := ⟨total_supply, admin⟩
    let balances1 :=
      members.foldl (fun b m => transferBal b admin m (100 * 100000)) σ.balances
    (Except.ok (), { σ with
      tokenConfig := some token_config
      proposalCount := some 0
      balances := balances1 })

/-- Function `create_proposal(env, creator, title, description, deadline)`: rejects a
deadline not in the future, allocates `id = count + 1` (absent counter read
as 0), stores the new proposal, and bumps the counter. -/
def create_proposal (now creator : Nat) (title description : String)
    (deadline : Nat) (σ : DAOState) : Except DAOError Nat × DAOState :=
  if deadline ≤ now then
    (Except.error DAOError.ProposalExpired, σ)
  else
    let proposal_count := (σ.proposalCount).getD 0
    let new_id := proposal_count + 1
    let proposal : Proposal :=
      ⟨new_id, title, description, deadline, 0, 0, creator, true⟩
    (Except.ok new_id, { σ with
      proposals := fun i => if i = new_id then some proposal else σ.proposals i
      proposalCount := some new_id })

/-- Function `get_proposal(env, proposal_id)`. -/
def get_proposal (proposal_id : Nat) (σ : DAOState) :
    Except DAOError Proposal :=
  match σ.proposals proposal_id with
  | none => Except.error DAOError.InvalidProposal
  | some p => Except.ok p

/-- Function `vote(env, voter, proposal_id, is_yes, amount)`: checks, in source
order: positive amount, proposal exists, proposal not expired/inactive, not
already voted, `TokenConfig` present, balance convertible to u64 and
sufficient; then transfers `amount` into contract custody, records the
`Vote`, bumps the matching accumulator, and increments the
`LockedTokens` aggregate of the voter. -/
def vote (now voter proposal_id : Nat) (is_yes : Bool) (amount : Nat)
    (σ : DAOState) : Except DAOError Unit × DAOState :=
  if amount = 0 then
    (Except.error DAOError.InvalidVote, σ)
  else
    match σ.proposals proposal_id with
    | none => (Except.error DAOError.InvalidProposal, σ)
    | some proposal =>
      if proposal.deadline < now ∨ proposal.active = false then
        (Except.error DAOError.ProposalExpired, σ)
      else if (σ.votes proposal_id voter).isSome then
        (Except.error DAOError.AlreadyVoted, σ)
      else
        match σ.tokenConfig with
        | none => (Except.error DAOError.NotInitialised, σ)
        | some _token_config =>
          let bal := σ.balances voter
          if bal < 0 ∨ u64Max < bal then
            (Except.error DAOError.InvalidVote, σ)
          else
            let available_balance := bal.toNat
            if available_balance < amount then
              (Except.error DAOError.InsufficientTokens, σ)
            else
              let proposal1 :=
                if is_yes then
                  { proposal with yes_votes := proposal.yes_votes + amount }
                else
                  { proposal with no_votes := proposal.no_votes + amount }
              let locked_amount := (σ.lockedTokens voter).getD 0 + amount
              (Except.ok (), { σ with
                balances :=
                  transferBal σ.balances voter σ.contractAddr (Int.ofNat amount)
                votes := fun pid a =>
                  if pid = proposal_id ∧ a = voter then
                    some ⟨voter, amount, is_yes⟩
                  else σ.votes pid a
                proposals := fun i =>
                  if i = proposal_id then some proposal1 else σ.proposals i
                lockedTokens := fun a =>
                  if a = voter then some locked_amount else σ.lockedTokens a })

/-- Function `tally_proposal(env, proposal_id)`: requires the proposal to exist and
`now > deadline`, reads `total_supply`, and closes the proposal; returns
`false` when `yes_votes + no_votes <= total_supply * 51 / 100`, otherwise
`yes_votes > no_votes`. -/
def tally_proposal (now proposal_id : Nat) (σ : DAOState) :
    Except DAOError Bool × DAOState :=
  match σ.proposals proposal_id with
  | none => (Except.error DAOError.InvalidProposal, σ)
  | some proposal =>
    if now ≤ proposal.deadline then
      (Except.error DAOError.VotingNotClosed, σ)
    else
      match σ.tokenConfig with
      | none => (Except.error DAOError.NotInitialised, σ)
      | some token_config =>
        let total_votes := proposal.yes_votes + proposal.no_votes
        let quorum_threshold := token_config.total_supply * 51 / 100
        if total_votes ≤ quorum_threshold then
          (Except.ok false, { σ with
            proposals := fun i =>
              if i = proposal_id then some { proposal with active := false }
              else σ.proposals i })
        else
          let passed := decide (proposal.yes_votes > proposal.no_votes)
          (Except.ok passed, { σ with
            proposals := fun i =>
              if i = proposal_id then some { proposal with active := false }
              else σ.proposals i })

/-- The state `unlock_tokens` leaves behind when it releases a non-zero
lock `k` of voter `v`: the ledger transfer from contract custody back to
the voter, and the `LockedTokens(v)` record removed. -/
def unlockedState (σ : DAOState) (v k : Nat) : DAOState :=
  { σ with
    balances := transferBal σ.balances σ.contractAddr v (Int.ofNat k)
    lockedTokens := fun a => if a = v then none else σ.lockedTokens a }

/-- Function `unlock_tokens(env, voter)`: no-op if nothing is locked; otherwise
transfers the full locked amount from the contract back to the voter and
removes the `LockedTokens` record. -/
def unlock_tokens (voter : Nat) (σ : DAOState) :
    Except DAOError Unit × DAOState :=
  let locked_amount := (σ.lockedTokens voter).getD 0
  if locked_amount = 0 then
    (Except.ok (), σ)
  else
    match σ.tokenConfig with
    | none => (Except.error DAOError.NotInitialised, σ)
    | some _token_config =>
      (Except.ok (), unlockedState σ voter locked_amount)

end DAOContract

/-- One public contract invocation, with the ledger timestamp the source
reads from the environment made explicit. -/
inductive Op where
  | initialiseOp (admin : Nat) (members : List Nat) (token_id : Nat)
  | createOp (now creator : Nat) (title description : String) (deadline : Nat)
  | voteOp (now voter proposal_id : Nat) (is_yes : Bool) (amount : Nat)
  | tallyOp (now proposal_id : Nat)
  | unlockOp (voter : Nat)

/-- The storage/ledger state after one invocation (an invocation that
returns an error leaves the state unchanged, as each operation does). -/
def stepOp : Op → DAOState → DAOState
  | Op.initialiseOp a m t, σ => (DAOContract.initialise a m t σ).2
  | Op.createOp now c t d dl, σ => (DAOContract.create_proposal now c t d dl σ).2
  | Op.voteOp now v pid iy amt, σ => (DAOContract.vote now v pid iy amt σ).2
  | Op.tallyOp now pid, σ => (DAOContract.tally_proposal now pid σ).2
  | Op.unlockOp v, σ => (DAOContract.unlock_tokens v σ).2

/-- States reachable from a fresh contract instance (arbitrary pre-existing
ledger balances) by any sequence of invocations. -/
inductive Reachable : DAOState → Prop where
  | init (bal : Nat → Int) (contract : Nat) :
      Reachable (initialState bal contract)
  | step (o : Op) (σ : DAOState) : Reachable σ → Reachable (stepOp o σ)

/-- Ghost bookkeeping for the locked-tokens invariant: alongside the state,
for each voter the amounts of the Vote records they have cast whose tokens
have not yet been returned (newest first).  A successful `vote` prepends
its amount; a successful `unlock_tokens` (including the nothing-locked
no-op) marks them all returned. -/
def stepGhost (o : Op) (sg : DAOState × (Nat → List Nat)) :
    DAOState × (Nat → List Nat) :=
  match o with
  | Op.voteOp now v pid iy amt =>
    match DAOContract.vote now v pid iy amt sg.1 with
    | (Except.ok _, σ1) =>
      (σ1, fun a => if a = v then amt :: sg.2 a else sg.2 a)
    | (Except.error _, σ1) => (σ1, sg.2)
  | Op.unlockOp v =>
    match DAOContract.unlock_tokens v sg.1 with
    | (Except.ok _, σ1) => (σ1, fun a => if a = v then [] else sg.2 a)
    | (Except.error _, σ1) => (σ1, sg.2)
  | o1 => (stepOp o1 sg.1, sg.2)

/-- Run a sequence of invocations with the ghost unreturned-vote lists. -/
def runGhost (ops : List Op) (sg : DAOState × (Nat → List Nat)) :
    DAOState × (Nat → List Nat) :=
  ops.foldl (fun sg1 o => stepGhost o sg1) sg

/-- Ledger where address 0 (the admin) holds a large balance. -/
def balEx : Nat → Int := fun a => if a = 0 then 1000000000 else 0

/-- Fresh contract instance at address 50 over the `balEx` ledger. -/
def σFresh : DAOState := initialState balEx 50

/-- Fresh instance with one proposal (id 1, deadline 100) created at time 0
— note no `initialise` happened, so `TokenConfig` is absent. -/
def σNoCfg : DAOState := stepOp (Op.createOp 0 2 "t" "d" 100) σFresh

/-- Fresh instance, initialised with admin 0 and sole member 1, then one
proposal (id 1, deadline 100) created at time 0, then member 1 votes yes
with amount 5 at time 1 — so voter 1 has `LockedTokens = 5` and an
existing Vote record on proposal 1. -/
def σLocked : DAOState :=
  stepOp (Op.voteOp 1 1 1 true 5)
    (stepOp (Op.createOp 0 2 "t" "d" 100)
      (stepOp (Op.initialiseOp 0 [1] 9) σFresh))

/-- Initialised state (total supply 300) with a proposal whose voting is
over: yes = 60, no = 40, deadline 2000 — the worked example from the spec. -/
def σTally : DAOState :=
  { tokenConfig := some ⟨300, 0⟩
    proposalCount := some 1
    proposals := fun i =>
      if i = 1 then some ⟨1, "t", "d", 2000, 60, 40, 2, true⟩ else none
    votes := fun _ _ => none
    lockedTokens := fun _ => none
    balances := balEx
    contractAddr := 50 }

/-- State `σTally` after a first tally at time 2001 (proposal 1 now inactive). -/
def σClosed : DAOState := (DAOContract.tally_proposal 2001 1 σTally).2

/-- Proposal 1 as stored in `σClosed`. -/
def pClosed : Proposal := ⟨1, "t", "d", 2000, 60, 40, 2, false⟩

namespace DAOContract

/-- Case analysis of `initialise`: it either fails `AlreadyInitialised`
with the state unchanged, or succeeds from an uninitialised state with the
documented writes. -/
theorem initialise_spec (admin : Nat) (members : List Nat) (t : Nat)
    (σ : DAOState) :
    (σ.tokenConfig.isSome = true ∧
      initialise admin members t σ =
        (Except.error DAOError.AlreadyInitialised, σ)) ∨
    (σ.tokenConfig = none ∧
      initialise admin members t σ = (Except.ok (), { σ with
        tokenConfig := some ⟨members.length * 100 * 100000, admin⟩
        proposalCount := some 0
        balances :=
          members.foldl (fun b m => transferBal b admin m (100 * 100000))
            σ.balances })) := by
  unfold initialise
  by_cases h : σ.tokenConfig.isSome = true
  · exact Or.inl ⟨h, by simp [h]⟩
  · refine Or.inr ⟨Option.not_isSome_iff_eq_none.mp (by simpa using h), ?_⟩
    simp [h]

/-- Case analysis of `create_proposal`: a non-future deadline fails
`ProposalExpired` with the state unchanged; otherwise it succeeds with
`id = count + 1` and the documented writes. -/
theorem create_spec (now creator : Nat) (title description : String)
    (deadline : Nat) (σ : DAOState) :
    (deadline ≤ now ∧
      create_proposal now creator title description deadline σ =
        (Except.error DAOError.ProposalExpired, σ)) ∨
    (now < deadline ∧
      create_proposal now creator title description deadline σ =
        (Except.ok ((σ.proposalCount).getD 0 + 1), { σ with
          proposals := fun i =>
            if i = (σ.proposalCount).getD 0 + 1 then
              some ⟨(σ.proposalCount).getD 0 + 1, title, description,
                deadline, 0, 0, creator, true⟩
            else σ.proposals i
          proposalCount := some ((σ.proposalCount).getD 0 + 1) })) := by
  unfold create_proposal
  by_cases h : deadline ≤ now
  · exact Or.inl ⟨h, by simp [h]⟩
  · exact Or.inr ⟨Nat.lt_of_not_le h, by simp [h]⟩

/-- Case analysis of `vote`: every run either fails with one of the listed
errors and the state unchanged (`NotInitialised` only when `TokenConfig`
is absent), or passes every check and performs exactly the documented
writes. -/
theorem vote_spec (now voter proposal_id : Nat) (is_yes : Bool)
    (amount : Nat) (σ : DAOState) :
    (∃ e, vote now voter proposal_id is_yes amount σ = (Except.error e, σ) ∧
      (e = DAOError.InvalidVote ∨ e = DAOError.InvalidProposal ∨
       e = DAOError.ProposalExpired ∨ e = DAOError.AlreadyVoted ∨
       e = DAOError.InsufficientTokens ∨
       (e = DAOError.NotInitialised ∧ σ.tokenConfig = none))) ∨
    (∃ p tc, σ.proposals proposal_id = some p ∧ σ.tokenConfig = some tc ∧
      amount ≠ 0 ∧ σ.votes proposal_id voter = none ∧ p.active = true ∧
      now ≤ p.deadline ∧
      vote now voter proposal_id is_yes amount σ = (Except.ok (), { σ with
        balances :=
          transferBal σ.balances voter σ.contractAddr (Int.ofNat amount)
        votes := fun pid a =>
          if pid = proposal_id ∧ a = voter then some ⟨voter, amount, is_yes⟩
          else σ.votes pid a
        proposals := fun i =>
          if i = proposal_id then
            some (if is_yes then { p with yes_votes := p.yes_votes + amount }
                  else { p with no_votes := p.no_votes + amount })
          else σ.proposals i
        lockedTokens := fun a =>
          if a = voter then some ((σ.lockedTokens voter).getD 0 + amount)
          else σ.lockedTokens a })) := by
  unfold vote
  by_cases h0 : amount = 0
  · simp only [if_pos h0]
    exact Or.inl ⟨_, rfl, Or.inl rfl⟩
  simp only [if_neg h0]
  cases hp : σ.proposals proposal_id with
  | none => exact Or.inl ⟨_, rfl, Or.inr (Or.inl rfl)⟩
  | some p =>
    by_cases hexp : p.deadline < now ∨ p.active = false
    · simp only [if_pos hexp]
      exact Or.inl ⟨_, rfl, Or.inr (Or.inr (Or.inl rfl))⟩
    simp only [if_neg hexp]
    by_cases hv : (σ.votes proposal_id voter).isSome = true
    · simp only [if_pos hv]
      exact Or.inl ⟨_, rfl, Or.inr (Or.inr (Or.inr (Or.inl rfl)))⟩
    simp only [if_neg hv]
    cases hc : σ.tokenConfig with
    | none => exact Or.inl ⟨_, rfl, Or.inr (Or.inr (Or.inr (Or.inr (Or.inr ⟨rfl, rfl⟩))))⟩
    | some tc =>
      by_cases hb : σ.balances voter < 0 ∨ u64Max < σ.balances voter
      · simp only [if_pos hb]
        exact Or.inl ⟨_, rfl, Or.inl rfl⟩
      simp only [if_neg hb]
      by_cases hins : (σ.balances voter).toNat < amount
      · simp only [if_pos hins]
        exact Or.inl ⟨_, rfl, Or.inr (Or.inr (Or.inr (Or.inr (Or.inl rfl))))⟩
      simp only [if_neg hins]
      push_neg at hexp
      refine Or.inr ⟨p, tc, rfl, rfl, h0, ?_, ?_, hexp.1, rfl⟩
      · exact Option.not_isSome_iff_eq_none.mp (by simpa using hv)
      · cases hact : p.active with
        | true => rfl
        | false => exact absurd hact hexp.2

/-- Case analysis of `tally_proposal`: missing proposal, voting still open,
uninitialised, or success with the quorum/majority outcome and the single
`active := false` write. -/
theorem tally_spec (now proposal_id : Nat) (σ : DAOState) :
    (σ.proposals proposal_id = none ∧
      tally_proposal now proposal_id σ =
        (Except.error DAOError.InvalidProposal, σ)) ∨
    (∃ p, σ.proposals proposal_id = some p ∧ now ≤ p.deadline ∧
      tally_proposal now proposal_id σ =
        (Except.error DAOError.VotingNotClosed, σ)) ∨
    (∃ p, σ.proposals proposal_id = some p ∧ p.deadline < now ∧
      σ.tokenConfig = none ∧
      tally_proposal now proposal_id σ =
        (Except.error DAOError.NotInitialised, σ)) ∨
    (∃ p tc, σ.proposals proposal_id = some p ∧ p.deadline < now ∧
      σ.tokenConfig = some tc ∧
      tally_proposal now proposal_id σ =
        (Except.ok
          (if p.yes_votes + p.no_votes ≤ tc.total_supply * 51 / 100
           then false else decide (p.yes_votes > p.no_votes)),
         { σ with proposals := fun i =>
             if i = proposal_id then some { p with active := false }
             else σ.proposals i })) := by
  unfold tally_proposal
  cases hp : σ.proposals proposal_id with
  | none => exact Or.inl ⟨rfl, rfl⟩
  | some p =>
    by_cases hd : now ≤ p.deadline
    · exact Or.inr (Or.inl ⟨p, rfl, hd, by simp [if_pos hd]⟩)
    cases hc : σ.tokenConfig with
    | none =>
      exact Or.inr (Or.inr (Or.inl ⟨p, rfl, Nat.lt_of_not_le hd, rfl,
        by simp [if_neg hd]⟩))
    | some tc =>
      refine Or.inr (Or.inr (Or.inr ⟨p, tc, rfl, Nat.lt_of_not_le hd, rfl, ?_⟩))
      simp only [if_neg hd]
      by_cases hq : p.yes_votes + p.no_votes ≤ tc.total_supply * 51 / 100
      · simp [if_pos hq]
      · simp [if_neg hq]

/-- Case analysis of `unlock_tokens`: nothing locked is a no-op; a non-zero
lock with `TokenConfig` absent fails `NotInitialised` unchanged; otherwise
the full lock is released. -/
theorem unlock_spec (voter : Nat) (σ : DAOState) :
    ((σ.lockedTokens voter).getD 0 = 0 ∧
      unlock_tokens voter σ = (Except.ok (), σ)) ∨
    ((σ.lockedTokens voter).getD 0 ≠ 0 ∧ σ.tokenConfig = none ∧
      unlock_tokens voter σ = (Except.error DAOError.NotInitialised, σ)) ∨
    (∃ tc, (σ.lockedTokens voter).getD 0 ≠ 0 ∧ σ.tokenConfig = some tc ∧
      unlock_tokens voter σ =
        (Except.ok (), unlockedState σ voter ((σ.lockedTokens voter).getD 0))) := by
  unfold unlock_tokens
  by_cases h : (σ.lockedTokens voter).getD 0 = 0
  · exact Or.inl ⟨h, by simp [if_pos h]⟩
  cases hc : σ.tokenConfig with
  | none => exact Or.inr (Or.inl ⟨h, rfl, by simp [if_neg h]⟩)
  | some tc => exact Or.inr (Or.inr ⟨tc, h, rfl, by simp [if_neg h]⟩)

/-- In any reachable state, a `LockedTokens` record can only exist once the
contract has been initialised: `TokenConfig` absent forces every
`LockedTokens` record absent.  (Locks are only ever written by a
successful `vote`, which requires `TokenConfig`, and `TokenConfig` is
never removed.) -/
theorem reachable_locks_need_config {σ : DAOState} (h : Reachable σ) :
    σ.tokenConfig = none → ∀ v, σ.lockedTokens v = none := by
  induction h with
  | init bal c => intro _ v; rfl
  | step o σ1 hσ ih =>
    cases o with
    | initialiseOp a m t =>
      rcases initialise_spec a m t σ1 with ⟨h1, heq⟩ | ⟨h1, heq⟩ <;>
        simp only [stepOp, heq]
      · exact ih
      · intro hc
        exact absurd hc (by simp)
    | createOp now c ti d dl =>
      rcases create_spec now c ti d dl σ1 with ⟨h1, heq⟩ | ⟨h1, heq⟩ <;>
        simp only [stepOp, heq]
      · exact ih
      · exact ih
    | voteOp now v0 pid iy amt =>
      rcases vote_spec now v0 pid iy amt σ1 with ⟨e, heq, _⟩ |
        ⟨p, tc, hp, hc0, _, _, _, _, heq⟩ <;>
        simp only [stepOp, heq]
      · exact ih
      · intro hc
        rw [hc0] at hc
        simp at hc
    | tallyOp now pid =>
      rcases tally_spec now pid σ1 with ⟨h1, heq⟩ | ⟨p, hp, hd, heq⟩ |
        ⟨p, hp, hd, hc0, heq⟩ | ⟨p, tc, hp, hd, hc0, heq⟩ <;>
        simp only [stepOp, heq]
      · exact ih
      · exact ih
      · exact ih
      · exact ih
    | unlockOp v0 =>
      rcases unlock_spec v0 σ1 with ⟨h1, heq⟩ | ⟨h1, hc0, heq⟩ |
        ⟨tc, h1, hc0, heq⟩ <;>
        simp only [stepOp, heq]
      · exact ih
      · exact ih
      · intro hc
        simp only [unlockedState] at hc
        rw [hc0] at hc
        simp at hc

/-- One invocation preserves the invariant tying the stored
`LockedTokens` aggregate of each voter to the ghost list of their
unreturned vote amounts. -/
theorem stepGhost_locked (o : Op) (sg : DAOState × (Nat → List Nat))
    (h : ∀ w, (sg.1.lockedTokens w).getD 0 = (sg.2 w).sum) :
    ∀ w, ((stepGhost o sg).1.lockedTokens w).getD 0 =
      ((stepGhost o sg).2 w).sum := by
  cases o with
  | initialiseOp a m t =>
    rcases initialise_spec a m t sg.1 with ⟨h1, heq⟩ | ⟨h1, heq⟩ <;>
      simp only [stepGhost, stepOp, heq] <;> exact h
  | createOp now c ti d dl =>
    rcases create_spec now c ti d dl sg.1 with ⟨h1, heq⟩ | ⟨h1, heq⟩ <;>
      simp only [stepGhost, stepOp, heq] <;> exact h
  | tallyOp now pid =>
    rcases tally_spec now pid sg.1 with ⟨h1, heq⟩ | ⟨p, hp, hd, heq⟩ |
      ⟨p, hp, hd, hc0, heq⟩ | ⟨p, tc, hp, hd, hc0, heq⟩ <;>
      simp only [stepGhost, stepOp, heq] <;> exact h
  | voteOp now v0 pid iy amt =>
    rcases vote_spec now v0 pid iy amt sg.1 with ⟨e, heq, _⟩ |
      ⟨p, tc, hp, hc0, h0, hv, hact, hdl, heq⟩ <;>
      simp only [stepGhost, heq]
    · exact h
    · intro w
      by_cases hw : w = v0
      · subst hw
        simp [h w]
        omega
      · simp [hw, h w]
  | unlockOp v0 =>
    rcases unlock_spec v0 sg.1 with ⟨h1, heq⟩ | ⟨h1, hc0, heq⟩ |
      ⟨tc, h1, hc0, heq⟩ <;> simp only [stepGhost, heq]
    · intro w
      by_cases hw : w = v0
      · subst hw
        simpa using h1
      · simp only [if_neg hw]
        exact h w
    · exact h
    · intro w
      by_cases hw : w = v0
      · subst hw
        simp [unlockedState]
      · simp only [unlockedState, if_neg hw]
        exact h w

end DAOContract

/-- C2: for every voter and every sequence of operations (failed
invocations leave the state unchanged), the stored `LockedTokens(voter)`
aggregate equals the sum of `amount` over the Vote records of that voter
whose tokens have not been returned — each successful vote prepends its amount
to the ghost list and increments the aggregate by exactly that amount, and
a successful `unlock_tokens` clears both. -/
theorem locked_tokens_invariant (bal : Nat → Int) (contract : Nat)
    (ops : List Op) (v : Nat) :
    (((runGhost ops (initialState bal contract, fun _ => [])).1.lockedTokens v).getD 0)
      = ((runGhost ops (initialState bal contract, fun _ => [])).2 v).sum := by
  have main : ∀ (l : List Op) (sg : DAOState × (Nat → List Nat)),
      (∀ w, (sg.1.lockedTokens w).getD 0 = (sg.2 w).sum) →
      ∀ w, ((runGhost l sg).1.lockedTokens w).getD 0 =
        ((runGhost l sg).2 w).sum := by
    intro l
    induction l with
    | nil =>
      intro sg h w
      exact h w
    | cons o rest ih =>
      intro sg h w
      exact ih (stepGhost o sg) (DAOContract.stepGhost_locked o sg h) w
  exact main ops (initialState bal contract, fun _ => []) (fun w => rfl) v

/-- Re-writing a proposal slot with the value it already holds leaves the
state unchanged. -/
theorem proposals_update_self (σ : DAOState) (proposal_id : Nat)
    (q : Proposal) (h : σ.proposals proposal_id = some q) :
    { σ with proposals := fun i =>
        if i = proposal_id then some q else σ.proposals i } = σ := by
  have hfun : (fun i => if i = proposal_id then some q else σ.proposals i)
      = σ.proposals := by
    funext i
    by_cases hi : i = proposal_id
    · rw [if_pos hi, hi, h]
    · rw [if_neg hi]
  rw [hfun]

/-- C1: for a stored proposal whose deadline has passed and with
`TokenConfig` present, `tally_proposal` returns `false` whenever
`yes_votes + no_votes ≤ total_supply * 51 / 100` (quorum not met), and
otherwise returns `yes_votes > no_votes` — so a tie returns `false`. -/
theorem tally_quorum_arithmetic (σ : DAOState) (now proposal_id : Nat)
    (p : Proposal) (tc : TokenConfig)
    (hp : σ.proposals proposal_id = some p) (hnow : p.deadline < now)
    (htc : σ.tokenConfig = some tc) :
    (DAOContract.tally_proposal now proposal_id σ).1 =
      Except.ok (if p.yes_votes + p.no_votes ≤ tc.total_supply * 51 / 100
                 then false else decide (p.yes_votes > p.no_votes)) := by
  rcases DAOContract.tally_spec now proposal_id σ with ⟨h1, heq⟩ |
    ⟨q, hq, hd, heq⟩ | ⟨q, hq, hd, hc0, heq⟩ | ⟨q, tc1, hq, hd, hc0, heq⟩
  · rw [hp] at h1
    cases h1
  · rw [hp] at hq
    injection hq with hq
    subst hq
    omega
  · rw [htc] at hc0
    cases hc0
  · rw [hp] at hq
    injection hq with hq
    subst hq
    rw [htc] at hc0
    injection hc0 with hc0
    subst hc0
    rw [heq]

/-- C1 witness: the worked example from the spec — total supply 300, yes = 60,
no = 40, tallied after the deadline: 100 ≤ 153, quorum not met, result
`false`. -/
theorem tally_quorum_arithmetic_witness :
    (DAOContract.tally_proposal 2001 1 σTally).1 = Except.ok false :=
  (tally_quorum_arithmetic σTally 2001 1 ⟨1, "t", "d", 2000, 60, 40, 2, true⟩
    ⟨300, 0⟩ rfl (by decide) rfl).trans rfl

/-- C7: `tally_proposal` on an existing proposal fails `VotingNotClosed`
exactly when `now ≤ deadline`, whether or not the proposal is still
active. -/
theorem tally_voting_not_closed_iff (σ : DAOState) (now proposal_id : Nat)
    (p : Proposal) (hp : σ.proposals proposal_id = some p) :
    (DAOContract.tally_proposal now proposal_id σ).1 =
      Except.error DAOError.VotingNotClosed ↔ now ≤ p.deadline := by
  rcases DAOContract.tally_spec now proposal_id σ with ⟨h1, heq⟩ |
    ⟨q, hq, hd, heq⟩ | ⟨q, hq, hd, hc0, heq⟩ | ⟨q, tc1, hq, hd, hc0, heq⟩
  · rw [hp] at h1
    cases h1
  · rw [hp] at hq
    injection hq with hq
    subst hq
    rw [heq]
    simp [hd]
  · rw [hp] at hq
    injection hq with hq
    subst hq
    rw [heq]
    constructor
    · intro h
      cases h
    · intro h
      omega
  · rw [hp] at hq
    injection hq with hq
    subst hq
    rw [heq]
    constructor
    · intro h
      cases h
    · intro h
      omega

/-- C7 witness: `σClosed` holds proposal 1 already inactive with deadline
2000; tallying at time 1500 is rejected with `VotingNotClosed`. -/
theorem tally_voting_not_closed_witness :
    (DAOContract.tally_proposal 1500 1 σClosed).1 =
      Except.error DAOError.VotingNotClosed :=
  (tally_voting_not_closed_iff σClosed 1500 1 pClosed rfl).mpr (by decide)

/-- C8: a repeated `tally_proposal` after a successful one is not
rejected: called again (at the same or a later time) on the state the
first call left — in which the proposal is already inactive — it
recomputes the same stored vote totals, returns the same boolean, and
leaves the state unchanged beyond re-persisting the closed proposal. -/
theorem tally_idempotent (σ σ1 : DAOState) (now now2 proposal_id : Nat)
    (b : Bool)
    (h1 : DAOContract.tally_proposal now proposal_id σ = (Except.ok b, σ1))
    (h2 : now ≤ now2) :
    DAOContract.tally_proposal now2 proposal_id σ1 = (Except.ok b, σ1) := by
  rcases DAOContract.tally_spec now proposal_id σ with ⟨hp, heq⟩ |
    ⟨p, hp, hd, heq⟩ | ⟨p, hp, hd, hc0, heq⟩ | ⟨p, tc, hp, hd, hc0, heq⟩
  · rw [heq] at h1
    simp at h1
  · rw [heq] at h1
    simp at h1
  · rw [heq] at h1
    simp at h1
  · rw [heq] at h1
    injection h1 with hb hs
    injection hb with hb
    subst hb
    subst hs
    rcases DAOContract.tally_spec now2 proposal_id
        { σ with proposals := fun i =>
            if i = proposal_id then some { p with active := false }
            else σ.proposals i } with ⟨hp1, heq1⟩ |
      ⟨q, hq1, hd1, heq1⟩ | ⟨q, hq1, hd1, hc1, heq1⟩ |
      ⟨q, tc1, hq1, hd1, hc1, heq1⟩
    · simp at hp1
    · simp only [if_pos rfl] at hq1
      injection hq1 with hq1
      subst hq1
      simp at hd1
      omega
    · simp only at hc1
      rw [hc0] at hc1
      cases hc1
    · simp only [if_pos rfl] at hq1
      injection hq1 with hq1
      subst hq1
      simp only at hc1
      rw [hc0] at hc1
      injection hc1 with hc1
      subst hc1
      rw [heq1]
      refine congrArg (Prod.mk _) ?_
      exact proposals_update_self _ proposal_id _ (by simp)

/-- C8 witness: tallying `σTally` at 2001 yields `false`; tallying again
at 2002 on the resulting closed state yields the same `false` and the
same state. -/
theorem tally_idempotent_witness :
    DAOContract.tally_proposal 2002 1 σClosed = (Except.ok false, σClosed) :=
  tally_idempotent σTally σClosed 2001 2002 1 false rfl (by decide)

/-- C5: `create_proposal` fails `ProposalExpired` exactly when
`deadline ≤ now`; otherwise it returns `id = previous count + 1` (an
absent counter reading as 0, so ids start at 1 and increase), stores under
that id a proposal with `active = true`, zero accumulators and the
supplied creator, title, description and deadline verbatim, and sets the
counter to the new id. -/
theorem create_proposal_correct (now creator : Nat)
    (title description : String) (deadline : Nat) (σ : DAOState) :
    (deadline ≤ now →
      DAOContract.create_proposal now creator title description deadline σ =
        (Except.error DAOError.ProposalExpired, σ)) ∧
    (now < deadline →
      DAOContract.create_proposal now creator title description deadline σ =
        (Except.ok ((σ.proposalCount).getD 0 + 1), { σ with
          proposals := fun i =>
            if i = (σ.proposalCount).getD 0 + 1 then
              some ⟨(σ.proposalCount).getD 0 + 1, title, description,
                deadline, 0, 0, creator, true⟩
            else σ.proposals i
          proposalCount := some ((σ.proposalCount).getD 0 + 1) })) := by
  rcases DAOContract.create_spec now creator title description deadline σ with
    ⟨h1, heq⟩ | ⟨h1, heq⟩
  · exact ⟨fun _ => heq, fun h => absurd h1 (by omega)⟩
  · exact ⟨fun h => absurd h1 (by omega), fun _ => heq⟩

/-- C5 witness: on the fresh state, creating a proposal with deadline 100
at time 0 yields id 1 and stores the record verbatim. -/
theorem create_proposal_correct_witness :
    DAOContract.create_proposal 0 2 "t" "d" 100 σFresh =
      (Except.ok 1, { σFresh with
        proposals := fun i =>
          if i = 1 then some ⟨1, "t", "d", 100, 0, 0, 2, true⟩
          else σFresh.proposals i
        proposalCount := some 1 }) :=
  (create_proposal_correct 0 2 "t" "d" 100 σFresh).2 (by decide)

/-- C10: `create_proposal` never checks `TokenConfig`: it can never return
`NotInitialised`, and on a fresh uninitialised contract a call with a
future deadline succeeds, the absent counter is read as 0, and the first
proposal gets id 1. -/
theorem create_no_init_required :
    (∀ now creator title description deadline (σ : DAOState),
      (DAOContract.create_proposal now creator title description
        deadline σ).1 ≠ Except.error DAOError.NotInitialised) ∧
    (∀ (bal : Nat → Int) (contract now creator : Nat)
        (title description : String) (deadline : Nat), now < deadline →
      (DAOContract.create_proposal now creator title description deadline
        (initialState bal contract)).1 = Except.ok 1) := by
  constructor
  · intro now c t d dl σ h
    rcases DAOContract.create_spec now c t d dl σ with ⟨h1, heq⟩ | ⟨h1, heq⟩ <;>
      rw [heq] at h <;> simp at h
  · intro bal c now cr t d dl h
    rcases DAOContract.create_spec now cr t d dl (initialState bal c) with
      ⟨h1, heq⟩ | ⟨h1, heq⟩
    · omega
    · rw [heq]
      rfl

/-- C10 witness: the very first proposal on a never-initialised contract
succeeds and gets id 1. -/
theorem create_no_init_required_witness :
    (DAOContract.create_proposal 0 2 "t" "d" 100
      (initialState balEx 50)).1 = Except.ok 1 :=
  create_no_init_required.2 balEx 50 0 2 "t" "d" 100 (by decide)

/-- C4: every error-returning path of `initialise`, `create_proposal`,
`vote`, `tally_proposal` and `unlock_tokens` leaves the persistent state
exactly as it was before the call — no partial writes survive a
failure. -/
theorem errors_leave_state_unchanged (σ : DAOState) :
    (∀ a m t e, (DAOContract.initialise a m t σ).1 = Except.error e →
      (DAOContract.initialise a m t σ).2 = σ) ∧
    (∀ now c ti d dl e,
      (DAOContract.create_proposal now c ti d dl σ).1 = Except.error e →
      (DAOContract.create_proposal now c ti d dl σ).2 = σ) ∧
    (∀ now v pid iy amt e,
      (DAOContract.vote now v pid iy amt σ).1 = Except.error e →
      (DAOContract.vote now v pid iy amt σ).2 = σ) ∧
    (∀ now pid e,
      (DAOContract.tally_proposal now pid σ).1 = Except.error e →
      (DAOContract.tally_proposal now pid σ).2 = σ) ∧
    (∀ v e, (DAOContract.unlock_tokens v σ).1 = Except.error e →
      (DAOContract.unlock_tokens v σ).2 = σ) := by
  refine ⟨?_, ?_, ?_, ?_, ?_⟩
  · intro a m t e h
    rcases DAOContract.initialise_spec a m t σ with ⟨h1, heq⟩ | ⟨h1, heq⟩
    · rw [heq]
    · rw [heq] at h
      simp at h
  · intro now c ti d dl e h
    rcases DAOContract.create_spec now c ti d dl σ with ⟨h1, heq⟩ | ⟨h1, heq⟩
    · rw [heq]
    · rw [heq] at h
      simp at h
  · intro now v pid iy amt e h
    rcases DAOContract.vote_spec now v pid iy amt σ with ⟨e1, heq, _⟩ |
      ⟨p, tc, hp, hc, h0, hnone, hact, hd, heq⟩
    · rw [heq]
    · rw [heq] at h
      simp at h
  · intro now pid e h
    rcases DAOContract.tally_spec now pid σ with ⟨h1, heq⟩ | ⟨p, hp, hd, heq⟩ |
      ⟨p, hp, hd, hc, heq⟩ | ⟨p, tc, hp, hd, hc, heq⟩
    · rw [heq]
    · rw [heq]
    · rw [heq]
    · rw [heq] at h
      simp at h
  · intro v e h
    rcases DAOContract.unlock_spec v σ with ⟨h1, heq⟩ | ⟨h1, hc, heq⟩ |
      ⟨tc, h1, hc, heq⟩
    · rw [heq] at h
      simp at h
    · rw [heq]
    · rw [heq] at h
      simp at h

/-- C4 witness: the `NotInitialised`-failing vote on `σNoCfg` leaves the
state unchanged. -/
theorem errors_leave_state_unchanged_witness :
    (DAOContract.vote 1 7 1 true 5 σNoCfg).2 = σNoCfg :=
  (errors_leave_state_unchanged σNoCfg).2.2.1 1 7 1 true 5
    DAOError.NotInitialised rfl

/-- C3 counterexample: in `σLocked` voter 1 already has a Vote record on
proposal 1, yet a second `vote` call with the same (voter, proposal id)
pair — with amount 0 — fails with `InvalidVote`, not `AlreadyVoted`: the
positive-amount check runs first. -/
theorem second_vote_error_kind_cex :
    σLocked.votes 1 1 = some ⟨1, 5, true⟩ ∧
    (DAOContract.vote 1 1 1 true 0 σLocked).1 =
      Except.error DAOError.InvalidVote ∧
    DAOError.InvalidVote ≠ DAOError.AlreadyVoted :=
  ⟨rfl, rfl, by decide⟩

/-- C3 amended: if a Vote record for the (voter, proposal id) pair already
exists, a second `vote` call with that pair never succeeds and leaves the
state (accumulators and lock included) unchanged; it fails with
`AlreadyVoted` precisely when the checks that precede the duplicate-vote
check pass (positive amount, proposal exists, still active, deadline not
passed) — still before any token movement. -/
theorem second_vote_rejected (σ : DAOState) (now voter proposal_id : Nat)
    (is_yes : Bool) (amount : Nat) (v : Vote)
    (hv : σ.votes proposal_id voter = some v) :
    ((DAOContract.vote now voter proposal_id is_yes amount σ).1 ≠
        Except.ok () ∧
     (DAOContract.vote now voter proposal_id is_yes amount σ).2 = σ) ∧
    (∀ p, amount ≠ 0 → σ.proposals proposal_id = some p →
      p.active = true → now ≤ p.deadline →
      DAOContract.vote now voter proposal_id is_yes amount σ =
        (Except.error DAOError.AlreadyVoted, σ)) := by
  constructor
  · rcases DAOContract.vote_spec now voter proposal_id is_yes amount σ with
      ⟨e, heq, _⟩ | ⟨p, tc, hp, hc, h0, hnone, hact, hd, heq⟩
    · rw [heq]
      exact ⟨by simp, rfl⟩
    · rw [hv] at hnone
      cases hnone
  · intro p h0 hp hact hd
    have hexp : ¬(p.deadline < now ∨ p.active = false) := by
      push_neg
      exact ⟨by omega, by simp [hact]⟩
    simp [DAOContract.vote, h0, hp, hexp, hv]

/-- C3 amended witness: a well-formed second vote by voter 1 on proposal 1
in `σLocked` fails with `AlreadyVoted` and changes nothing. -/
theorem second_vote_rejected_witness :
    DAOContract.vote 2 1 1 false 3 σLocked =
      (Except.error DAOError.AlreadyVoted, σLocked) :=
  (second_vote_rejected σLocked 2 1 1 false 3 ⟨1, 5, true⟩ rfl).2
    ⟨1, "t", "d", 100, 5, 0, 2, true⟩ (by decide) rfl rfl (by decide)

/-- C6 counterexample: in `σNoCfg` proposal 1 exists but the contract was
never initialised; a well-formed `vote` then fails with `NotInitialised`,
which is none of the five error kinds the claim allows. -/
theorem vote_notinitialised_cex :
    (DAOContract.vote 1 7 1 true 5 σNoCfg).1 =
      Except.error DAOError.NotInitialised ∧
    DAOError.NotInitialised ≠ DAOError.InvalidVote ∧
    DAOError.NotInitialised ≠ DAOError.InvalidProposal ∧
    DAOError.NotInitialised ≠ DAOError.ProposalExpired ∧
    DAOError.NotInitialised ≠ DAOError.AlreadyVoted ∧
    DAOError.NotInitialised ≠ DAOError.InsufficientTokens :=
  ⟨rfl, by decide, by decide, by decide, by decide, by decide⟩

/-- C6 amended: a failing `vote` returns one of invalid-vote,
invalid-proposal, proposal-expired, already-voted or insufficient-tokens —
or `NotInitialised`, and the latter only when `TokenConfig` is absent
(possible because `create_proposal` does not require initialisation). -/
theorem vote_error_kinds (now voter proposal_id : Nat) (is_yes : Bool)
    (amount : Nat) (σ : DAOState) (e : DAOError)
    (h : (DAOContract.vote now voter proposal_id is_yes amount σ).1 =
      Except.error e) :
    e = DAOError.InvalidVote ∨ e = DAOError.InvalidProposal ∨
    e = DAOError.ProposalExpired ∨ e = DAOError.AlreadyVoted ∨
    e = DAOError.InsufficientTokens ∨
    (e = DAOError.NotInitialised ∧ σ.tokenConfig = none) := by
  rcases DAOContract.vote_spec now voter proposal_id is_yes amount σ with
    ⟨e1, heq, hcls⟩ | ⟨p, tc, hp, hc, h0, hnone, hact, hd, heq⟩
  · rw [heq] at h
    simp only [Except.error.injEq] at h
    subst h
    exact hcls
  · rw [heq] at h
    simp at h

/-- C6 amended witness: the `NotInitialised` failure on `σNoCfg` lands in
the extended classification. -/
theorem vote_error_kinds_witness :
    DAOError.NotInitialised = DAOError.InvalidVote ∨
    DAOError.NotInitialised = DAOError.InvalidProposal ∨
    DAOError.NotInitialised = DAOError.ProposalExpired ∨
    DAOError.NotInitialised = DAOError.AlreadyVoted ∨
    DAOError.NotInitialised = DAOError.InsufficientTokens ∨
    (DAOError.NotInitialised = DAOError.NotInitialised ∧
      σNoCfg.tokenConfig = none) :=
  vote_error_kinds 1 7 1 true 5 σNoCfg DAOError.NotInitialised rfl

/-- C9: in any reachable state, `unlock_tokens` on a voter with nothing
locked (record absent or zero) succeeds as a no-op, changing no state and
moving no tokens; on a voter with a non-zero lock `k` it transfers exactly
`k` from the contract back to the voter, removes the `LockedTokens`
record, and an immediate second call is then a no-op. -/
theorem unlock_tokens_release (σ : DAOState) (voter : Nat)
    (hr : Reachable σ) :
    ((σ.lockedTokens voter).getD 0 = 0 →
      DAOContract.unlock_tokens voter σ = (Except.ok (), σ)) ∧
    (∀ k, σ.lockedTokens voter = some k → k ≠ 0 →
      DAOContract.unlock_tokens voter σ =
        (Except.ok (), DAOContract.unlockedState σ voter k) ∧
      DAOContract.unlock_tokens voter (DAOContract.unlockedState σ voter k) =
        (Except.ok (), DAOContract.unlockedState σ voter k)) := by
  constructor
  · intro h0
    rcases DAOContract.unlock_spec voter σ with ⟨h1, heq⟩ | ⟨h1, hc, heq⟩ |
      ⟨tc, h1, hc, heq⟩
    · exact heq
    · exact absurd h0 h1
    · exact absurd h0 h1
  · intro k hk hk0
    have hcfg : ∃ tc, σ.tokenConfig = some tc := by
      cases hc : σ.tokenConfig with
      | none =>
        have hl := DAOContract.reachable_locks_need_config hr hc voter
        rw [hk] at hl
        cases hl
      | some tc => exact ⟨tc, rfl⟩
    obtain ⟨tc, hc⟩ := hcfg
    have hfirst : DAOContract.unlock_tokens voter σ =
        (Except.ok (), DAOContract.unlockedState σ voter k) := by
      unfold DAOContract.unlock_tokens
      simp [hk, hk0, hc]
    refine ⟨hfirst, ?_⟩
    unfold DAOContract.unlock_tokens
    simp [DAOContract.unlockedState]

/-- C9 witness: voter 1 holds a lock of 5 in the reachable state
`σLocked`; unlocking transfers it back and clears the record. -/
theorem unlock_tokens_release_witness :
    DAOContract.unlock_tokens 1 σLocked =
      (Except.ok (), DAOContract.unlockedState σLocked 1 5) :=
  ((unlock_tokens_release σLocked 1
      (Reachable.step (Op.voteOp 1 1 1 true 5) _
        (Reachable.step (Op.createOp 0 2 "t" "d" 100) _
          (Reachable.step (Op.initialiseOp 0 [1] 9) _
            (Reachable.init balEx 50))))).2 5 rfl (by decide)).1
